import Mathlib

/-!
Shallow embedding of the timestamp arithmetic core of ndless-rs
(src/src/file_io/sys/time.rs): the `Timespec` value type with its
normalized seconds + nanoseconds representation, the `Instant` and
`SystemTime` wrappers, and the raw-layout conversions.

Machine integers are modelled as `Int`/`Nat` with explicit wrapping
(`% 2^w`) exactly where the Rust code performs an `as` cast or where
release-mode two's-complement arithmetic can wrap; checked operations
(`checked_add`, `checked_sub`, `try_into`) are modelled with explicit
range tests returning `Option`.
-/

namespace NdlessTime

/-- Modelled from the spec: the platform's native integer width for the
seconds field (`libc::time_t` = `libc::c_long`) and for `libc::c_uint`.
The `libc` module of the crate is not part of the excerpt; the spec
describes `seconds` as a signed platform-width integer, and the platform
is a 32-bit ARM target, so `time_t` / `c_long` are 32-bit signed and
`c_uint` is 32-bit unsigned. -/
def TIME_T_MAX : Int := 2147483647

/-- Lower bound of the 32-bit signed seconds field (see `TIME_T_MAX`). -/
def TIME_T_MIN : Int := -2147483648

/-- NSEC_PER_SEC from the source (`const NSEC_PER_SEC: u64 = 1_000_000_000`). -/
def NSEC_PER_SEC : Nat := 1000000000

/-- Wrap an integer to the 32-bit signed (two's complement) range, the
release-mode semantics of overflowing `i32` arithmetic and of `as i32`. -/
def i32w (x : Int) : Int := (x + 2147483648) % 4294967296 - 2147483648

/-- Reinterpret an integer value as `u32` (the `as u32` cast). -/
def u32c (x : Int) : Nat := (x % 4294967296).toNat

/-- Reinterpret an integer value as `u64` (the `as u64` cast). -/
def u64c (x : Int) : Nat := (x % 18446744073709551616).toNat

/-- Reinterpret a `u32` value as `i32` (the `as i32` cast on a `u32`). -/
def i32ofU32 (n : Nat) : Int := i32w (n : Int)

/-- Wrapping `u32` addition. -/
def u32add (a b : Nat) : Nat := (a + b) % 4294967296

/-- Wrapping `u32` subtraction (for operands below 2^32). -/
def u32sub (a b : Nat) : Nat := (a + 4294967296 - b) % 4294967296

/-- The checked addition `a.checked_add(b)` on `libc::time_t`. -/
def checkedAddTimeT (a b : Int) : Option Int :=
  if TIME_T_MIN ≤ a + b ∧ a + b ≤ TIME_T_MAX then some (a + b) else none

/-- The checked subtraction `a.checked_sub(b)` on `libc::time_t`. -/
def checkedSubTimeT (a b : Int) : Option Int :=
  if TIME_T_MIN ≤ a - b ∧ a - b ≤ TIME_T_MAX then some (a - b) else none

/-- The conversion `u64 -> libc::time_t` attempted by `try_into()`:
succeeds exactly when the (non-negative) value fits in `time_t`. -/
def tryIntoTimeT (n : Nat) : Option Int :=
  if (n : Int) ≤ TIME_T_MAX then some (n : Int) else none

/-- Raw layout `libc::timespec` (fields `tv_sec : time_t`, `tv_nsec : c_long`). -/
structure timespec where
  tv_sec : Int
  tv_nsec : Int
deriving DecidableEq, Repr

/-- Raw layout `libc::timeval` (fields `tv_sec : time_t`, `tv_usec : suseconds_t`). -/
structure timeval where
  tv_sec : Int
  tv_usec : Int
deriving DecidableEq, Repr

/-- The `Timespec` struct of time.rs: a wrapped `libc::timespec`. -/
structure Timespec where
  t : timespec
deriving DecidableEq, Repr

/-- The value is representable in the machine fields: both 32-bit fields
lie in the `i32` range. -/
def Timespec.wf (ts : Timespec) : Prop :=
  TIME_T_MIN ≤ ts.t.tv_sec ∧ ts.t.tv_sec ≤ TIME_T_MAX ∧
  TIME_T_MIN ≤ ts.t.tv_nsec ∧ ts.t.tv_nsec ≤ TIME_T_MAX

/-- The normalization invariant of the spec: the sub-second field lies
in `[0, 1_000_000_000)`. -/
def Timespec.normalized (ts : Timespec) : Prop :=
  0 ≤ ts.t.tv_nsec ∧ ts.t.tv_nsec < 1000000000

/-- Timespec::zero(). -/
def Timespec.zero : Timespec := ⟨⟨0, 0⟩⟩

/-- The derived lexicographic order `self >= other` on `(tv_sec, tv_nsec)`
(the `Ord` impl compares the tuples `(tv_sec, tv_nsec)`). -/
def Timespec.tsGe (a b : Timespec) : Prop :=
  b.t.tv_sec < a.t.tv_sec ∨ (b.t.tv_sec = a.t.tv_sec ∧ b.t.tv_nsec ≤ a.t.tv_nsec)

instance (a b : Timespec) : Decidable (Timespec.tsGe a b) := by
  unfold Timespec.tsGe; infer_instance

instance (ts : Timespec) : Decidable (Timespec.wf ts) := by
  unfold Timespec.wf; infer_instance

instance (ts : Timespec) : Decidable (Timespec.normalized ts) := by
  unfold Timespec.normalized; infer_instance

/-- Model of `core::time::Duration`: `secs : u64`, `nanos : u32` with the
std invariant `nanos < NSEC_PER_SEC`. -/
structure Duration where
  secs : Nat
  nanos : Nat
deriving DecidableEq, Repr

/-- A machine-representable `core::time::Duration` value: `secs` fits in
`u64` and the std invariant `subsec_nanos < 1e9` holds. -/
def Duration.valid (d : Duration) : Prop :=
  d.secs < 18446744073709551616 ∧ d.nanos < 1000000000

instance (d : Duration) : Decidable (Duration.valid d) := by
  unfold Duration.valid; infer_instance

/-- Duration::new(secs, nanos): carries surplus whole seconds from `nanos`
into `secs`. (std panics when that carry overflows `u64`; every call site
in this development passes `nanos < 1e9`, so the carry is zero there.) -/
def Duration.new (secs nanos : Nat) : Duration :=
  ⟨secs + nanos / NSEC_PER_SEC, nanos % NSEC_PER_SEC⟩

/-- Total nanosecond count denoted by a duration. -/
def Duration.toNanos (d : Duration) : Int :=
  (d.secs : Int) * 1000000000 + (d.nanos : Int)

/-- Total (signed) nanosecond count denoted by a timestamp. -/
def Timespec.toNanos (ts : Timespec) : Int :=
  ts.t.tv_sec * 1000000000 + ts.t.tv_nsec

/-- Timespec::sub_timespec. In the `self >= other` branch the seconds
difference is computed in `time_t` (i32) arithmetic and cast `as u64`, the
nanosecond difference in i32 (branch 1, cast `as u32`) or u32 (branch 2)
arithmetic; in the other branch the call recurses with swapped operands
and flips the result. -/
def Timespec.sub_timespec (a b : Timespec) : Except Duration Duration :=
  if Timespec.tsGe a b then
    Except.ok
      (if b.t.tv_nsec ≤ a.t.tv_nsec then
        Duration.new (u64c (i32w (a.t.tv_sec - b.t.tv_sec)))
          (u32c (i32w (a.t.tv_nsec - b.t.tv_nsec)))
      else
        Duration.new (u64c (i32w (i32w (a.t.tv_sec - 1) - b.t.tv_sec)))
          (u32sub (u32add (u32c a.t.tv_nsec) NSEC_PER_SEC) (u32c b.t.tv_nsec)))
  else
    match Timespec.sub_timespec b a with
    | Except.ok d => Except.error d
    | Except.error d => Except.ok d
termination_by (if Timespec.tsGe a b then 0 else 1)
decreasing_by
  rename_i h
  have hba : Timespec.tsGe b a := by
    unfold Timespec.tsGe at h ⊢; omega
  simp [h, hba]

/-- Timespec::checked_add_duration. -/
def Timespec.checked_add_duration (ts : Timespec) (other : Duration) : Option Timespec :=
  match tryIntoTimeT other.secs with
  | none => none
  | some s =>
    match checkedAddTimeT ts.t.tv_sec s with
    | none => none
    | some secs =>
      let nsec := u32add other.nanos (u32c ts.t.tv_nsec)
      if NSEC_PER_SEC ≤ nsec then
        match checkedAddTimeT secs 1 with
        | none => none
        | some secs1 => some ⟨⟨secs1, i32ofU32 (nsec - NSEC_PER_SEC)⟩⟩
      else
        some ⟨⟨secs, i32ofU32 nsec⟩⟩

/-- Timespec::checked_sub_duration. The nanosecond difference
`tv_nsec as i32 - subsec_nanos() as i32` is computed in i32 arithmetic;
the branch adjustment `nsec += NSEC_PER_SEC` cannot wrap because there
`nsec` lies in `[-2^31, 0)`. -/
def Timespec.checked_sub_duration (ts : Timespec) (other : Duration) : Option Timespec :=
  match tryIntoTimeT other.secs with
  | none => none
  | some s =>
    match checkedSubTimeT ts.t.tv_sec s with
    | none => none
    | some secs =>
      let nsec := i32w (ts.t.tv_nsec - i32ofU32 other.nanos)
      if nsec < 0 then
        match checkedSubTimeT secs 1 with
        | none => none
        | some secs1 => some ⟨⟨secs1, nsec + (NSEC_PER_SEC : Int)⟩⟩
      else
        some ⟨⟨secs, nsec⟩⟩

/-- The `Instant` wrapper of mod inner. -/
structure Instant where
  t : Timespec
deriving DecidableEq, Repr

/-- The `SystemTime` wrapper of mod inner. -/
structure SystemTime where
  t : Timespec
deriving DecidableEq, Repr

/-- UNIX_EPOCH. -/
def UNIX_EPOCH : SystemTime := ⟨Timespec.zero⟩

/-- Instant::checked_sub_instant: `self.t.sub_timespec(&other.t).ok()`. -/
def Instant.checked_sub_instant (a b : Instant) : Option Duration :=
  match Timespec.sub_timespec a.t b.t with
  | Except.ok d => some d
  | Except.error _ => none

/-- Instant::checked_add_duration. -/
def Instant.checked_add_duration (a : Instant) (other : Duration) : Option Instant :=
  match Timespec.checked_add_duration a.t other with
  | none => none
  | some t => some ⟨t⟩

/-- Instant::checked_sub_duration. -/
def Instant.checked_sub_duration (a : Instant) (other : Duration) : Option Instant :=
  match Timespec.checked_sub_duration a.t other with
  | none => none
  | some t => some ⟨t⟩

/-- SystemTime::sub_time. -/
def SystemTime.sub_time (a b : SystemTime) : Except Duration Duration :=
  Timespec.sub_timespec a.t b.t

/-- SystemTime::checked_add_duration. -/
def SystemTime.checked_add_duration (a : SystemTime) (other : Duration) : Option SystemTime :=
  match Timespec.checked_add_duration a.t other with
  | none => none
  | some t => some ⟨t⟩

/-- SystemTime::checked_sub_duration. -/
def SystemTime.checked_sub_duration (a : SystemTime) (other : Duration) : Option SystemTime :=
  match Timespec.checked_sub_duration a.t other with
  | none => none
  | some t => some ⟨t⟩

/-- From<libc::timeval> for SystemTime: `tv_nsec = t.tv_usec * 1000`,
computed in `c_long` (i32) arithmetic. -/
def SystemTime.fromTimeval (tv : timeval) : SystemTime :=
  ⟨⟨⟨tv.tv_sec, i32w (tv.tv_usec * 1000)⟩⟩⟩

/-- From<libc::timespec> for SystemTime: `SystemTime { t: Timespec { t } }`. -/
def SystemTime.fromTimespec (ts : timespec) : SystemTime :=
  ⟨⟨ts⟩⟩

/-- From<libc::c_uint> for SystemTime: `tv_sec = t as libc::c_long`
(a `u32 -> i32` reinterpretation), `tv_nsec = 0`, then the timespec
conversion. -/
def SystemTime.fromCUint (v : Nat) : SystemTime :=
  SystemTime.fromTimespec ⟨i32ofU32 v, 0⟩

/-- Outcome of a function whose Rust body may panic: either the panic
(from `.unwrap()` on an `Err`) or the returned value. -/
inductive NowResult (α : Type) where
  | aborts : NowResult α
  | returns : α → NowResult α
deriving DecidableEq

/-- Modelled from the spec: `cvt` (from crate::file_io::sys, not part of
the excerpt) converts a raw syscall return code into a result, signaling
failure (the conventional -1 return) distinctly from any valid reading. -/
def cvt (ret : Int) : Except Int Int :=
  if ret = -1 then Except.error ret else Except.ok ret

/-- Instant::now, as a function of the external gettimeofday collaborator's
outputs: the return code `ret` and the filled `timeval` buffer `s`. The
body is `cvt(gettimeofday(..)).unwrap()`, so an error return aborts;
otherwise the reading is wrapped with `tv_nsec = s.tv_usec * 1000`. -/
def Instant.nowFrom (ret : Int) (s : timeval) : NowResult Instant :=
  match cvt ret with
  | Except.error _ => NowResult.aborts
  | Except.ok _ => NowResult.returns ⟨⟨⟨s.tv_sec, i32w (s.tv_usec * 1000)⟩⟩⟩

/-- SystemTime::now, as a function of the external gettimeofday
collaborator's outputs; on success it is `SystemTime::from(s)`. -/
def SystemTime.nowFrom (ret : Int) (s : timeval) : NowResult SystemTime :=
  match cvt ret with
  | Except.error _ => NowResult.aborts
  | Except.ok _ => NowResult.returns (SystemTime.fromTimeval s)

/-- Magnitude carried by a directional difference result: both the `Ok`
and the `Err` case hold a `Duration`. -/
def exMag (e : Except Duration Duration) : Duration :=
  match e with
  | Except.ok d => d
  | Except.error d => d

/-- Direction tag of a directional difference result: `true` for the
forward (`Ok`) case. -/
def isFwd (e : Except Duration Duration) : Bool :=
  match e with
  | Except.ok _ => true
  | Except.error _ => false

theorem i32w_eq_of {x : Int} (h1 : -2147483648 ≤ x) (h2 : x < 2147483648) :
    i32w x = x := by
  unfold i32w; omega

theorem u32c_cast {x : Int} (h1 : 0 ≤ x) (h2 : x < 4294967296) :
    (u32c x : Int) = x := by
  unfold u32c; omega

theorem u64c_cast {x : Int} (h1 : 0 ≤ x) (h2 : x < 18446744073709551616) :
    (u64c x : Int) = x := by
  unfold u64c; omega

theorem i32ofU32_eq {n : Nat} (h : n < 2147483648) : i32ofU32 n = (n : Int) := by
  unfold i32ofU32 i32w; omega

theorem Duration.new_eq {s n : Nat} (h : n < 1000000000) :
    Duration.new s n = ⟨s, n⟩ := by
  unfold Duration.new NSEC_PER_SEC
  congr 1 <;> omega

theorem tsGe_total {a b : Timespec} (h : ¬ Timespec.tsGe a b) : Timespec.tsGe b a := by
  unfold Timespec.tsGe at h ⊢; omega

theorem tsGe_antisymm {a b : Timespec} (h1 : Timespec.tsGe a b)
    (h2 : Timespec.tsGe b a) : a = b := by
  obtain ⟨⟨as1, an⟩⟩ := a
  obtain ⟨⟨bs, bn⟩⟩ := b
  unfold Timespec.tsGe at h1 h2
  simp only [Timespec.mk.injEq, timespec.mk.injEq] at h1 h2 ⊢
  omega

theorem Timespec.mk_eq {ts : Timespec} {x y : Int}
    (h1 : x = ts.t.tv_sec) (h2 : y = ts.t.tv_nsec) :
    (⟨⟨x, y⟩⟩ : Timespec) = ts := by
  subst h1
  subst h2
  rfl

theorem sub_timespec_ok_of_ge (a b : Timespec) (h : Timespec.tsGe a b) :
    Timespec.sub_timespec a b = Except.ok
      (if b.t.tv_nsec ≤ a.t.tv_nsec then
        Duration.new (u64c (i32w (a.t.tv_sec - b.t.tv_sec)))
          (u32c (i32w (a.t.tv_nsec - b.t.tv_nsec)))
      else
        Duration.new (u64c (i32w (i32w (a.t.tv_sec - 1) - b.t.tv_sec)))
          (u32sub (u32add (u32c a.t.tv_nsec) NSEC_PER_SEC) (u32c b.t.tv_nsec))) := by
  rw [Timespec.sub_timespec]
  simp [h]

theorem sub_timespec_swap_of_lt (a b : Timespec) (h : ¬ Timespec.tsGe a b) :
    Timespec.sub_timespec a b =
      match Timespec.sub_timespec b a with
      | Except.ok d => Except.error d
      | Except.error d => Except.ok d := by
  conv_lhs => rw [Timespec.sub_timespec]
  simp [h]

theorem sub_timespec_ok_iff (a b : Timespec) :
    (∃ d, Timespec.sub_timespec a b = Except.ok d) ↔ Timespec.tsGe a b := by
  by_cases h : Timespec.tsGe a b
  · rw [sub_timespec_ok_of_ge a b h]
    simp [h]
  · rw [sub_timespec_swap_of_lt a b h]
    rw [sub_timespec_ok_of_ge b a (tsGe_total h)]
    simp [h]

theorem sub_timespec_error_iff (a b : Timespec) :
    (∃ d, Timespec.sub_timespec a b = Except.error d) ↔ ¬ Timespec.tsGe a b := by
  by_cases h : Timespec.tsGe a b
  · rw [sub_timespec_ok_of_ge a b h]
    simp [h]
  · rw [sub_timespec_swap_of_lt a b h]
    rw [sub_timespec_ok_of_ge b a (tsGe_total h)]
    simp [h]

theorem sub_timespec_toNanos_of_ge (a b : Timespec) (d : Duration)
    (hwa : a.wf) (hwb : b.wf) (hna : a.normalized) (hnb : b.normalized)
    (hfit : a.t.tv_sec - b.t.tv_sec < 2147483648)
    (hge : Timespec.tsGe a b)
    (heq : Timespec.sub_timespec a b = Except.ok d) :
    Duration.toNanos d = Timespec.toNanos a - Timespec.toNanos b := by
  rw [sub_timespec_ok_of_ge a b hge] at heq
  obtain ⟨hwa1, hwa2, hwa3, hwa4⟩ := hwa
  obtain ⟨hwb1, hwb2, hwb3, hwb4⟩ := hwb
  obtain ⟨hna1, hna2⟩ := hna
  obtain ⟨hnb1, hnb2⟩ := hnb
  unfold Timespec.tsGe at hge
  simp only [TIME_T_MIN, TIME_T_MAX] at hwa1 hwa2 hwa3 hwa4 hwb1 hwb2 hwb3 hwb4
  by_cases hb : b.t.tv_nsec ≤ a.t.tv_nsec
  · rw [if_pos hb] at heq
    simp only [Except.ok.injEq] at heq
    subst heq
    unfold Duration.toNanos Timespec.toNanos Duration.new u64c u32c i32w NSEC_PER_SEC
    dsimp only
    omega
  · rw [if_neg hb] at heq
    simp only [Except.ok.injEq] at heq
    subst heq
    unfold Duration.toNanos Timespec.toNanos Duration.new u64c u32c u32add u32sub i32w NSEC_PER_SEC
    dsimp only
    omega

theorem checked_add_duration_spec (t : Timespec) (d : Duration)
    (hw : t.wf) (hn : t.normalized) (hd : d.valid) :
    Timespec.checked_add_duration t d =
      if (d.secs : Int) ≤ TIME_T_MAX then
        if t.t.tv_nsec + (d.nanos : Int) < 1000000000 then
          if t.t.tv_sec + (d.secs : Int) ≤ TIME_T_MAX then
            some ⟨⟨t.t.tv_sec + (d.secs : Int), t.t.tv_nsec + (d.nanos : Int)⟩⟩
          else none
        else
          if t.t.tv_sec + (d.secs : Int) + 1 ≤ TIME_T_MAX then
            some ⟨⟨t.t.tv_sec + (d.secs : Int) + 1, t.t.tv_nsec + (d.nanos : Int) - 1000000000⟩⟩
          else none
      else none := by
  obtain ⟨hw1, hw2, hw3, hw4⟩ := hw
  obtain ⟨hn1, hn2⟩ := hn
  obtain ⟨hd1, hd2⟩ := hd
  simp only [TIME_T_MIN, TIME_T_MAX] at hw1 hw2 hw3 hw4 ⊢
  unfold Timespec.checked_add_duration tryIntoTimeT checkedAddTimeT
  simp only [TIME_T_MIN, TIME_T_MAX]
  have e2 : u32add d.nanos (u32c t.t.tv_nsec) = d.nanos + t.t.tv_nsec.toNat := by
    unfold u32add u32c; omega
  rw [e2]
  by_cases h1 : (d.secs : Int) ≤ 2147483647
  · rw [if_pos h1, if_pos h1]
    dsimp only
    by_cases h2 : -2147483648 ≤ t.t.tv_sec + (d.secs : Int) ∧ t.t.tv_sec + (d.secs : Int) ≤ 2147483647
    · rw [if_pos h2]
      dsimp only
      by_cases h3 : t.t.tv_nsec + (d.nanos : Int) < 1000000000
      · rw [if_pos h3]
        have h4 : ¬ NSEC_PER_SEC ≤ d.nanos + t.t.tv_nsec.toNat := by
          unfold NSEC_PER_SEC; omega
        rw [if_neg h4, if_pos h2.2]
        have e3 : i32ofU32 (d.nanos + t.t.tv_nsec.toNat) = t.t.tv_nsec + (d.nanos : Int) := by
          unfold i32ofU32 i32w; omega
        rw [e3]
      · rw [if_neg h3]
        have h4 : NSEC_PER_SEC ≤ d.nanos + t.t.tv_nsec.toNat := by
          unfold NSEC_PER_SEC; omega
        rw [if_pos h4]
        by_cases h5 : -2147483648 ≤ t.t.tv_sec + (d.secs : Int) + 1 ∧
            t.t.tv_sec + (d.secs : Int) + 1 ≤ 2147483647
        · rw [if_pos h5, if_pos h5.2]
          dsimp only
          have e3 : i32ofU32 (d.nanos + t.t.tv_nsec.toNat - NSEC_PER_SEC) =
              t.t.tv_nsec + (d.nanos : Int) - 1000000000 := by
            unfold i32ofU32 i32w NSEC_PER_SEC; omega
          rw [e3]
        · rw [if_neg h5, if_neg (by omega)]
    · rw [if_neg h2]
      dsimp only
      have h3 : ¬ t.t.tv_sec + (d.secs : Int) ≤ 2147483647 := by omega
      rw [if_neg h3,
        if_neg (show ¬ t.t.tv_sec + (d.secs : Int) + 1 ≤ 2147483647 by omega)]
      split <;> rfl
  · rw [if_neg h1, if_neg h1]

theorem checked_sub_duration_spec (t : Timespec) (d : Duration)
    (hw : t.wf) (hn : t.normalized) (hd : d.valid) :
    Timespec.checked_sub_duration t d =
      if (d.secs : Int) ≤ TIME_T_MAX then
        if 0 ≤ t.t.tv_nsec - (d.nanos : Int) then
          if TIME_T_MIN ≤ t.t.tv_sec - (d.secs : Int) then
            some ⟨⟨t.t.tv_sec - (d.secs : Int), t.t.tv_nsec - (d.nanos : Int)⟩⟩
          else none
        else
          if TIME_T_MIN ≤ t.t.tv_sec - (d.secs : Int) - 1 then
            some ⟨⟨t.t.tv_sec - (d.secs : Int) - 1, t.t.tv_nsec - (d.nanos : Int) + 1000000000⟩⟩
          else none
      else none := by
  obtain ⟨hw1, hw2, hw3, hw4⟩ := hw
  obtain ⟨hn1, hn2⟩ := hn
  obtain ⟨hd1, hd2⟩ := hd
  simp only [TIME_T_MIN, TIME_T_MAX] at hw1 hw2 hw3 hw4 ⊢
  unfold Timespec.checked_sub_duration tryIntoTimeT checkedSubTimeT
  simp only [TIME_T_MIN, TIME_T_MAX]
  have e2 : i32w (t.t.tv_nsec - i32ofU32 d.nanos) = t.t.tv_nsec - (d.nanos : Int) := by
    unfold i32ofU32 i32w; omega
  rw [e2]
  by_cases h1 : (d.secs : Int) ≤ 2147483647
  · rw [if_pos h1, if_pos h1]
    dsimp only
    by_cases h2 : -2147483648 ≤ t.t.tv_sec - (d.secs : Int) ∧ t.t.tv_sec - (d.secs : Int) ≤ 2147483647
    · rw [if_pos h2]
      dsimp only
      by_cases h3 : 0 ≤ t.t.tv_nsec - (d.nanos : Int)
      · rw [if_neg (show ¬ t.t.tv_nsec - (d.nanos : Int) < 0 by omega), if_pos h3, if_pos h2.1]
      · rw [if_pos (show t.t.tv_nsec - (d.nanos : Int) < 0 by omega), if_neg h3]
        by_cases h5 : -2147483648 ≤ t.t.tv_sec - (d.secs : Int) - 1 ∧
            t.t.tv_sec - (d.secs : Int) - 1 ≤ 2147483647
        · rw [if_pos h5, if_pos h5.1]
          dsimp only
          norm_num [NSEC_PER_SEC]
        · rw [if_neg h5, if_neg (by omega)]
    · rw [if_neg h2]
      dsimp only
      have h3 : ¬ -2147483648 ≤ t.t.tv_sec - (d.secs : Int) := by omega
      rw [if_neg h3,
        if_neg (show ¬ -2147483648 ≤ t.t.tv_sec - (d.secs : Int) - 1 by omega)]
      split <;> rfl
  · rw [if_neg h1, if_neg h1]

/-- C1 counterexample: the claim asserts the normalization invariant for
values escaping every constructor, for arbitrary raw-layout inputs; but
`From<libc::timespec>` copies `tv_nsec` verbatim, so the raw input
`{tv_sec: 0, tv_nsec: 1_000_000_000}` produces a `SystemTime` whose
nanoseconds field violates `0 ≤ nanoseconds < 1e9`. -/
theorem C1_counterexample :
    ¬ Timespec.normalized (SystemTime.fromTimespec ⟨0, 1000000000⟩).t := by
  decide

/-- C1 (amended): the normalization invariant `0 ≤ tv_nsec < 1e9` holds for
`zero()`, for every value returned by `checked_add_duration` and
`checked_sub_duration` on machine-representable normalized operands with a
valid duration, for the whole-seconds conversion `From<libc::c_uint>` on
every input, and for the microseconds conversion `From<libc::timeval>`
whenever the raw microsecond field is a valid microsecond count
(`0 ≤ tv_usec < 1_000_000`); the verbatim conversion `From<libc::timespec>`
yields a normalized value exactly when the raw `tv_nsec` is already in
range. -/
theorem C1_normalization_amended :
    Timespec.normalized Timespec.zero
    ∧ (∀ (t : Timespec) (d : Duration) (r : Timespec),
        t.wf → t.normalized → d.valid →
        Timespec.checked_add_duration t d = some r → r.normalized)
    ∧ (∀ (t : Timespec) (d : Duration) (r : Timespec),
        t.wf → t.normalized → d.valid →
        Timespec.checked_sub_duration t d = some r → r.normalized)
    ∧ (∀ v : Nat, Timespec.normalized (SystemTime.fromCUint v).t)
    ∧ (∀ tv : timeval, 0 ≤ tv.tv_usec → tv.tv_usec < 1000000 →
        Timespec.normalized (SystemTime.fromTimeval tv).t)
    ∧ (∀ ts : timespec, Timespec.normalized (SystemTime.fromTimespec ts).t ↔
        (0 ≤ ts.tv_nsec ∧ ts.tv_nsec < 1000000000)) := by
  refine ⟨by decide, ?_, ?_, ?_, ?_, fun ts => Iff.rfl⟩
  · intro t d r hw hn hd h
    rw [checked_add_duration_spec t d hw hn hd] at h
    obtain ⟨hn1, hn2⟩ := hn
    obtain ⟨hd1, hd2⟩ := hd
    split_ifs at h with h1 h2 h3 h4
    all_goals first
      | exact Option.noConfusion h
      | (simp only [Option.some.injEq] at h; subst h;
         unfold Timespec.normalized; dsimp only; omega)
  · intro t d r hw hn hd h
    rw [checked_sub_duration_spec t d hw hn hd] at h
    obtain ⟨hn1, hn2⟩ := hn
    obtain ⟨hd1, hd2⟩ := hd
    split_ifs at h with h1 h2 h3 h4
    all_goals first
      | exact Option.noConfusion h
      | (simp only [Option.some.injEq] at h; subst h;
         unfold Timespec.normalized; dsimp only; omega)
  · intro v
    unfold SystemTime.fromCUint SystemTime.fromTimespec Timespec.normalized
    dsimp only
    omega
  · intro tv h1 h2
    unfold SystemTime.fromTimeval Timespec.normalized
    dsimp only
    rw [i32w_eq_of (by omega) (by omega)]
    omega

/-- C1 witness: the amended theorem applied at the concrete carry scenario
(0.9 s + 0.2 s) and at a concrete valid `timeval`. -/
theorem C1_witness :
    Timespec.normalized (⟨⟨1, 100000000⟩⟩ : Timespec)
    ∧ Timespec.normalized (SystemTime.fromTimeval ⟨10, 250⟩).t :=
  ⟨C1_normalization_amended.2.1 ⟨⟨0, 900000000⟩⟩ ⟨0, 200000000⟩ ⟨⟨1, 100000000⟩⟩
      (by decide) (by decide) (by decide) (by decide),
    C1_normalization_amended.2.2.2.2.1 ⟨10, 250⟩ (by decide) (by decide)⟩

/-- C2: round trip. For a machine-representable normalized timestamp `t`
and a valid duration `d`, if `checked_add_duration(t, d)` returns `r`,
then `checked_sub_duration(r, d)` succeeds and returns `t` exactly. -/
theorem C2_round_trip (t : Timespec) (d : Duration) (r : Timespec)
    (hw : t.wf) (hn : t.normalized) (hd : d.valid)
    (h : Timespec.checked_add_duration t d = some r) :
    Timespec.checked_sub_duration r d = some t := by
  rw [checked_add_duration_spec t d hw hn hd] at h
  obtain ⟨hw1, hw2, hw3, hw4⟩ := hw
  obtain ⟨hn1, hn2⟩ := hn
  obtain ⟨hd1, hd2⟩ := hd
  simp only [TIME_T_MIN, TIME_T_MAX] at hw1 hw2 hw3 hw4 h
  split_ifs at h with h1 h2 h3 h4
  all_goals first
    | exact Option.noConfusion h
    | (simp only [Option.some.injEq] at h; subst h;
       rw [checked_sub_duration_spec _ d
         (by unfold Timespec.wf TIME_T_MIN TIME_T_MAX; dsimp only; omega)
         (by unfold Timespec.normalized; dsimp only; omega) ⟨hd1, hd2⟩];
       simp only [TIME_T_MIN, TIME_T_MAX];
       split_ifs
       all_goals first
         | (exact congrArg some (Timespec.mk_eq (by omega) (by omega)))
         | (exfalso; omega))

/-- C2 witness: the round trip at the concrete carry scenario. -/
theorem C2_witness :
    Timespec.checked_sub_duration ⟨⟨1, 100000000⟩⟩ ⟨0, 200000000⟩ = some ⟨⟨0, 900000000⟩⟩ :=
  C2_round_trip ⟨⟨0, 900000000⟩⟩ ⟨0, 200000000⟩ ⟨⟨1, 100000000⟩⟩
    (by decide) (by decide) (by decide) (by decide)

/-- C3 counterexample: both operands are normalized machine timestamps, the
difference is the forward (`Ok`) outcome, but the seconds difference
overflows the 32-bit `time_t` subtraction and wraps, so the returned
duration (about 2^64 - 1 seconds) is not the non-negative magnitude of the
difference (4294967295 seconds). -/
theorem C3_counterexample :
    Timespec.normalized (⟨⟨2147483647, 0⟩⟩ : Timespec)
    ∧ Timespec.normalized (⟨⟨-2147483648, 0⟩⟩ : Timespec)
    ∧ SystemTime.sub_time ⟨⟨⟨2147483647, 0⟩⟩⟩ ⟨⟨⟨-2147483648, 0⟩⟩⟩ =
        Except.ok ⟨18446744073709551615, 0⟩
    ∧ Duration.toNanos ⟨18446744073709551615, 0⟩ ≠
        Timespec.toNanos ⟨⟨2147483647, 0⟩⟩ - Timespec.toNanos ⟨⟨-2147483648, 0⟩⟩ := by
  refine ⟨by decide, by decide, ?_, by decide⟩
  unfold SystemTime.sub_time
  rw [Timespec.sub_timespec]
  norm_num [Timespec.tsGe, Duration.new, u64c, u32c, i32w, NSEC_PER_SEC]
  decide

/-- C3 (amended): for normalized machine timestamps whose seconds
difference fits the 32-bit seconds width, `sub_time` returns `Ok` exactly
when `self >= other` in the lexicographic order and `Err` exactly when
`self < other`, and in both cases the returned duration is the
non-negative magnitude of the difference. -/
theorem C3_directional_amended (x y : SystemTime)
    (hwx : x.t.wf) (hwy : y.t.wf) (hnx : x.t.normalized) (hny : y.t.normalized)
    (hf1 : x.t.t.tv_sec - y.t.t.tv_sec < 2147483648)
    (hf2 : y.t.t.tv_sec - x.t.t.tv_sec < 2147483648) :
    ((∃ d, SystemTime.sub_time x y = Except.ok d) ↔ Timespec.tsGe x.t y.t)
    ∧ ((∃ d, SystemTime.sub_time x y = Except.error d) ↔ ¬ Timespec.tsGe x.t y.t)
    ∧ (∀ d, SystemTime.sub_time x y = Except.ok d →
        Duration.toNanos d = Timespec.toNanos x.t - Timespec.toNanos y.t)
    ∧ (∀ d, SystemTime.sub_time x y = Except.error d →
        Duration.toNanos d = Timespec.toNanos y.t - Timespec.toNanos x.t) := by
  unfold SystemTime.sub_time
  refine ⟨sub_timespec_ok_iff _ _, sub_timespec_error_iff _ _, ?_, ?_⟩
  · intro d hd
    have hge : Timespec.tsGe x.t y.t := (sub_timespec_ok_iff _ _).mp ⟨d, hd⟩
    exact sub_timespec_toNanos_of_ge _ _ d hwx hwy hnx hny hf1 hge hd
  · intro d hd
    have hlt : ¬ Timespec.tsGe x.t y.t := (sub_timespec_error_iff _ _).mp ⟨d, hd⟩
    rw [sub_timespec_swap_of_lt _ _ hlt] at hd
    rcases hsub : Timespec.sub_timespec y.t x.t with d2 | d2 <;> rw [hsub] at hd
    · exact absurd hd (by simp)
    · simp only [Except.error.injEq] at hd
      subst hd
      exact sub_timespec_toNanos_of_ge _ _ d2 hwy hwx hny hnx hf2 (tsGe_total hlt) hsub

/-- C3 witness: the amended theorem applied at the concrete borrow
scenario from earlier, forward direction. -/
theorem C3_witness :
    Duration.toNanos ⟨1, 500000200⟩ =
      Timespec.toNanos ⟨⟨5, 200⟩⟩ - Timespec.toNanos ⟨⟨3, 500000000⟩⟩ :=
  (C3_directional_amended ⟨⟨⟨5, 200⟩⟩⟩ ⟨⟨⟨3, 500000000⟩⟩⟩
      (by decide) (by decide) (by decide) (by decide) (by decide) (by decide)).2.2.1
    ⟨1, 500000200⟩
    (by unfold SystemTime.sub_time
        rw [Timespec.sub_timespec]
        norm_num [Timespec.tsGe, Duration.new, u64c, u32c, i32w, u32add, u32sub, NSEC_PER_SEC]
        decide)

/-- C4: on a machine-representable normalized timestamp with a valid
duration, `checked_add_duration` returns `none` whenever the seconds
addition or the carry increment would exceed `TIME_T_MAX`, and
`checked_sub_duration` returns `none` whenever the seconds subtraction or
the borrow decrement would go below `TIME_T_MIN`; in particular adding a
duration with nonzero whole seconds at the maximum seconds value yields
`none`. -/
theorem C4_overflow_absent (t : Timespec) (d : Duration)
    (hw : t.wf) (hn : t.normalized) (hd : d.valid) :
    (TIME_T_MAX < t.t.tv_sec + (d.secs : Int) → Timespec.checked_add_duration t d = none)
    ∧ (1000000000 ≤ t.t.tv_nsec + (d.nanos : Int) →
        TIME_T_MAX < t.t.tv_sec + (d.secs : Int) + 1 →
        Timespec.checked_add_duration t d = none)
    ∧ (t.t.tv_sec - (d.secs : Int) < TIME_T_MIN → Timespec.checked_sub_duration t d = none)
    ∧ (t.t.tv_nsec < (d.nanos : Int) → t.t.tv_sec - (d.secs : Int) - 1 < TIME_T_MIN →
        Timespec.checked_sub_duration t d = none)
    ∧ (t.t.tv_sec = TIME_T_MAX → 1 ≤ d.secs → Timespec.checked_add_duration t d = none) := by
  rw [checked_add_duration_spec t d hw hn hd, checked_sub_duration_spec t d hw hn hd]
  obtain ⟨hw1, hw2, hw3, hw4⟩ := hw
  obtain ⟨hn1, hn2⟩ := hn
  obtain ⟨hd1, hd2⟩ := hd
  simp only [TIME_T_MIN, TIME_T_MAX] at hw1 hw2 hw3 hw4 ⊢
  refine ⟨?_, ?_, ?_, ?_, ?_⟩
  · intro h1
    split_ifs <;> first | rfl | (exfalso; omega)
  · intro h1 h2
    split_ifs <;> first | rfl | (exfalso; omega)
  · intro h1
    split_ifs <;> first | rfl | (exfalso; omega)
  · intro h1 h2
    split_ifs <;> first | rfl | (exfalso; omega)
  · intro h1 h2
    split_ifs <;> first | rfl | (exfalso; omega)

/-- C4 witness: concrete scenario 3 of the spec, adding one whole second
at the maximum representable seconds value. -/
theorem C4_witness :
    Timespec.checked_add_duration ⟨⟨2147483647, 0⟩⟩ ⟨1, 0⟩ = none :=
  (C4_overflow_absent ⟨⟨2147483647, 0⟩⟩ ⟨1, 0⟩
      (by decide) (by decide) (by decide)).2.2.2.2 (by decide) (by decide)

/-- C5 counterexample: at equal operands both directions of the
difference return the forward (`Ok`) tag, so the direction tags do not
always disagree. -/
theorem C5_counterexample :
    Timespec.sub_timespec Timespec.zero Timespec.zero = Except.ok ⟨0, 0⟩ := by
  rw [Timespec.sub_timespec]
  norm_num [Timespec.tsGe, Timespec.zero, Duration.new, u64c, u32c, i32w, NSEC_PER_SEC]

/-- C5 (amended): the magnitudes of `difference(a, b)` and
`difference(b, a)` always agree; the direction tags disagree whenever
`a ≠ b`, and at `a = b` both directions are tagged forward. -/
theorem C5_symmetry_amended (a b : Timespec) :
    exMag (Timespec.sub_timespec a b) = exMag (Timespec.sub_timespec b a)
    ∧ (a ≠ b → isFwd (Timespec.sub_timespec a b) = ! isFwd (Timespec.sub_timespec b a))
    ∧ (a = b → isFwd (Timespec.sub_timespec a b) = true
        ∧ isFwd (Timespec.sub_timespec b a) = true) := by
  by_cases hab : Timespec.tsGe a b <;> by_cases hba : Timespec.tsGe b a
  · have heq : a = b := tsGe_antisymm hab hba
    subst heq
    refine ⟨rfl, fun hne => absurd rfl hne, fun _ => ?_⟩
    rw [sub_timespec_ok_of_ge a a hab]
    exact ⟨rfl, rfl⟩
  · have hne : a ≠ b := fun h => hba (h ▸ hab)
    rw [sub_timespec_swap_of_lt b a hba, sub_timespec_ok_of_ge a b hab]
    exact ⟨rfl, fun _ => rfl, fun h => absurd h hne⟩
  · have hne : a ≠ b := fun h => hab (h ▸ hba)
    rw [sub_timespec_swap_of_lt a b hab, sub_timespec_ok_of_ge b a hba]
    exact ⟨rfl, fun _ => rfl, fun h => absurd h hne⟩
  · exact absurd (tsGe_total hab) hba

/-- C5 witness: the amended theorem at a concrete unequal pair. -/
theorem C5_witness :
    exMag (Timespec.sub_timespec ⟨⟨5, 200⟩⟩ ⟨⟨3, 500000000⟩⟩) =
      exMag (Timespec.sub_timespec ⟨⟨3, 500000000⟩⟩ ⟨⟨5, 200⟩⟩)
    ∧ isFwd (Timespec.sub_timespec ⟨⟨5, 200⟩⟩ ⟨⟨3, 500000000⟩⟩) =
      ! isFwd (Timespec.sub_timespec ⟨⟨3, 500000000⟩⟩ ⟨⟨5, 200⟩⟩) :=
  ⟨(C5_symmetry_amended ⟨⟨5, 200⟩⟩ ⟨⟨3, 500000000⟩⟩).1,
    (C5_symmetry_amended ⟨⟨5, 200⟩⟩ ⟨⟨3, 500000000⟩⟩).2.1 (by decide)⟩

/-- C6 counterexample: when the external clock source reports an error
(return code -1), both `Instant::now` and `SystemTime::now` abort through
`.unwrap()` instead of propagating an absent result. -/
theorem C6_counterexample :
    Instant.nowFrom (-1) ⟨0, 0⟩ = NowResult.aborts
    ∧ SystemTime.nowFrom (-1) ⟨0, 0⟩ = NowResult.aborts := by
  exact ⟨rfl, rfl⟩

/-- C6 (amended): on a raw clock-source error both `now` functions abort
(panic via `.unwrap()`), and on success both return exactly the wrapped
raw reading, never a fabricated default. -/
theorem C6_abort_amended (ret : Int) (s : timeval) :
    (ret = -1 → Instant.nowFrom ret s = NowResult.aborts
      ∧ SystemTime.nowFrom ret s = NowResult.aborts)
    ∧ (ret ≠ -1 →
        Instant.nowFrom ret s = NowResult.returns ⟨⟨⟨s.tv_sec, i32w (s.tv_usec * 1000)⟩⟩⟩
        ∧ SystemTime.nowFrom ret s = NowResult.returns (SystemTime.fromTimeval s)) := by
  unfold Instant.nowFrom SystemTime.nowFrom cvt
  constructor <;> intro h <;> simp [h]

/-- C6 witness: the amended theorem at a concrete failing reading. -/
theorem C6_witness :
    Instant.nowFrom (-1) ⟨3, 5⟩ = NowResult.aborts
    ∧ SystemTime.nowFrom (-1) ⟨3, 5⟩ = NowResult.aborts :=
  (C6_abort_amended (-1) ⟨3, 5⟩).1 rfl

/-- C7: concrete scenario 1, the borrow path of `sub_timespec`:
t1 = (5 s, 200 ns) minus t2 = (3 s, 500000000 ns) is the forward outcome
(1 s, 500000200 ns). -/
theorem C7_concrete_borrow :
    Timespec.sub_timespec ⟨⟨5, 200⟩⟩ ⟨⟨3, 500000000⟩⟩ = Except.ok ⟨1, 500000200⟩ := by
  rw [Timespec.sub_timespec]
  norm_num [Timespec.tsGe, Duration.new, u64c, u32c, i32w, u32add, u32sub, NSEC_PER_SEC]
  decide

/-- C8 counterexample: `Instant::checked_sub_instant` maps every backward
pair to `none`, so two backward pairs with different true magnitudes give
the same result and the magnitude is not recoverable from the returned
value. -/
theorem C8_counterexample :
    Instant.checked_sub_instant ⟨⟨⟨0, 0⟩⟩⟩ ⟨⟨⟨1, 0⟩⟩⟩ = none
    ∧ Instant.checked_sub_instant ⟨⟨⟨0, 0⟩⟩⟩ ⟨⟨⟨2, 0⟩⟩⟩ = none
    ∧ Timespec.toNanos ⟨⟨1, 0⟩⟩ - Timespec.toNanos ⟨⟨0, 0⟩⟩ ≠
        Timespec.toNanos ⟨⟨2, 0⟩⟩ - Timespec.toNanos ⟨⟨0, 0⟩⟩ := by
  refine ⟨?_, ?_, by decide⟩ <;> unfold Instant.checked_sub_instant
  · rw [sub_timespec_swap_of_lt ⟨⟨0, 0⟩⟩ ⟨⟨1, 0⟩⟩ (by decide),
      sub_timespec_ok_of_ge ⟨⟨1, 0⟩⟩ ⟨⟨0, 0⟩⟩ (by decide)]
  · rw [sub_timespec_swap_of_lt ⟨⟨0, 0⟩⟩ ⟨⟨2, 0⟩⟩ (by decide),
      sub_timespec_ok_of_ge ⟨⟨2, 0⟩⟩ ⟨⟨0, 0⟩⟩ (by decide)]

/-- C8 (amended): for machine-representable normalized instants whose
seconds difference fits the 32-bit width, `checked_sub_instant` returns
the forward magnitude when `self >= earlier` and returns `none` (the
backward magnitude is discarded) when `earlier > self`. -/
theorem C8_forward_only_amended (a b : Instant)
    (hwa : a.t.wf) (hwb : b.t.wf) (hna : a.t.normalized) (hnb : b.t.normalized)
    (hf : a.t.t.tv_sec - b.t.t.tv_sec < 2147483648) :
    (Timespec.tsGe a.t b.t → ∃ d, Instant.checked_sub_instant a b = some d
        ∧ Duration.toNanos d = Timespec.toNanos a.t - Timespec.toNanos b.t)
    ∧ (¬ Timespec.tsGe a.t b.t → Instant.checked_sub_instant a b = none) := by
  constructor
  · intro hge
    obtain ⟨d, hd⟩ := (sub_timespec_ok_iff a.t b.t).mpr hge
    refine ⟨d, ?_, sub_timespec_toNanos_of_ge _ _ d hwa hwb hna hnb hf hge hd⟩
    unfold Instant.checked_sub_instant
    rw [hd]
  · intro hlt
    obtain ⟨d, hd⟩ := (sub_timespec_error_iff a.t b.t).mpr hlt
    unfold Instant.checked_sub_instant
    rw [hd]

/-- C8 witness: the amended theorem at a concrete backward pair. -/
theorem C8_witness :
    Instant.checked_sub_instant ⟨⟨⟨7, 0⟩⟩⟩ ⟨⟨⟨9, 0⟩⟩⟩ = none :=
  (C8_forward_only_amended ⟨⟨⟨7, 0⟩⟩⟩ ⟨⟨⟨9, 0⟩⟩⟩
      (by decide) (by decide) (by decide) (by decide) (by decide)).2 (by decide)

/-- C9: `From<libc::timespec>` copies both raw fields verbatim, and the
resulting `SystemTime` is normalized exactly when the raw `tv_nsec`
already lies in `[0, 1e9)`. -/
theorem C9_timespec_verbatim (ts : timespec) :
    (SystemTime.fromTimespec ts).t.t = ts
    ∧ (Timespec.normalized (SystemTime.fromTimespec ts).t ↔
        (0 ≤ ts.tv_nsec ∧ ts.tv_nsec < 1000000000)) :=
  ⟨rfl, Iff.rfl⟩

/-- C10: `From<libc::c_uint>` always produces `tv_nsec = 0` and a seconds
field congruent to the unsigned input modulo 2^32 within the signed 32-bit
range (the `as libc::c_long` cast wraps); every input above the signed
maximum yields a negative seconds field. -/
theorem C10_cuint_wraps (v : Nat) (h : v < 4294967296) :
    (SystemTime.fromCUint v).t.t.tv_nsec = 0
    ∧ (SystemTime.fromCUint v).t.t.tv_sec % 4294967296 = (v : Int) % 4294967296
    ∧ TIME_T_MIN ≤ (SystemTime.fromCUint v).t.t.tv_sec
    ∧ (SystemTime.fromCUint v).t.t.tv_sec ≤ TIME_T_MAX
    ∧ (TIME_T_MAX < (v : Int) → (SystemTime.fromCUint v).t.t.tv_sec < 0) := by
  unfold SystemTime.fromCUint SystemTime.fromTimespec i32ofU32 i32w TIME_T_MIN TIME_T_MAX
  dsimp only
  refine ⟨rfl, ?_, ?_, ?_, fun h2 => ?_⟩ <;> omega

/-- C10 witness: the largest `c_uint` input wraps to a negative seconds
value with zero nanoseconds. -/
theorem C10_witness :
    (SystemTime.fromCUint 4294967295).t.t.tv_sec < 0
    ∧ (SystemTime.fromCUint 4294967295).t.t.tv_nsec = 0 :=
  ⟨(C10_cuint_wraps 4294967295 (by decide)).2.2.2.2 (by decide),
    (C10_cuint_wraps 4294967295 (by decide)).1⟩

end NdlessTime
